import Mathlib

/-!
Shallow embedding of the roundtable discussion orchestrator
(`src/roundtable.py`, `src/llm.py`).

Model endpoints are external collaborators: each chat-completion call is
modelled by an oracle.  Participant calls go through an oracle
`O : Nat -> List Message -> Except ProviderError String` taking the global
call counter and the two-message prompt; the moderator call goes through
`M : List Message -> Except ProviderError String`.  A Python exception from
a model call is the `.error` case; everything else is translated
structurally from the source.

The orchestration functions additionally return a trace of `CallRecord`s,
one per participant call issued, recording the round number, the label of
the called participant, the discussion rounds visible at the moment of the
call (exactly `discussion.rounds` when `_build_context` runs) and the
context string that was built.  This trace is ghost instrumentation: it
collects the values the source computes in `_conduct_round` so that the
specification claims about per-call context strings can be stated.
-/

/-- decimal numeral for a natural number, structural in a fuel argument so
that it reduces in the kernel; models Python string formatting of ints. -/
def toDigitsAux : Nat → Nat → List Char
  | 0, _ => []
  | fuel + 1, n =>
    if n < 10 then [Nat.digitChar n]
    else toDigitsAux fuel (n / 10) ++ [Nat.digitChar (n % 10)]

/-- decimal representation of a natural number (models Python `str(i)`). -/
def natRepr (n : Nat) : String := ⟨toDigitsAux (n + 1) n⟩

/-- one participant contribution as stored in a round dict:
`{"participant": label, "model": name, "text": text}`. -/
structure Contribution where
  participant : String
  model : String
  text : String
  deriving DecidableEq, Repr, Inhabited

/-- one round dict: `{"round_number": n, "contributions": [...]}`. -/
structure RoundData where
  round_number : Nat
  contributions : List Contribution
  deriving DecidableEq, Repr, Inhabited

/-- the `Discussion` dataclass of `src/roundtable.py`. -/
structure Discussion where
  question : String
  rounds : List RoundData
  final_summary : Option String
  deriving DecidableEq, Repr, Inhabited

/-- the `Participant` dataclass of `src/roundtable.py`; the bound llm
client is modelled by the call oracle, not stored in the state. -/
structure Participant where
  name : String
  label : String
  contributions : List String
  deriving DecidableEq, Repr, Inhabited

/-- an advertised tool descriptor: only its name and description reach the
core (they are listed in the system prompt). -/
structure Tool where
  name : String
  description : String
  deriving DecidableEq, Repr, Inhabited

/-- a chat message (`SystemMessage` / `HumanMessage`). -/
inductive Message where
  | system (content : String)
  | human (content : String)
  deriving DecidableEq, Repr, Inhabited

/-- failure of an underlying model call (a raised exception from
`llm.invoke`), carrying its message. -/
structure ProviderError where
  msg : String
  deriving DecidableEq, Repr, Inhabited

/-- the `Roundtable` orchestrator state after construction.  The float
`temperature` is forwarded opaquely to the clients and plays no role in
the orchestration, so it is not part of the model. -/
structure Roundtable where
  max_rounds : Nat
  moderator_enabled : Bool
  tools : Option (List Tool)
  moderator : Option String
  participants : List Participant
  deriving DecidableEq, Repr, Inhabited

/-! Context construction (`Roundtable._build_context`). -/

/-- the `"\n--- Round N ---"` header line appended per round. -/
def roundHeader (n : Nat) : String :=
  "\n--- Round " ++ natRepr n ++ " ---"

/-- the `"\nLabel: text"` line appended per included contribution. -/
def entryLine (c : Contribution) : String :=
  "\n" ++ c.participant ++ ": " ++ c.text

/-- context parts contributed by one round of the history loop: the round
header followed by the lines of every contribution whose participant label
differs from the current participant label. -/
def roundParts (label : String) (rd : RoundData) : List String :=
  roundHeader rd.round_number ::
    (rd.contributions.filter (fun c => c.participant ≠ label)).map entryLine

/-- context parts of the trailing block of `_build_context`: the latest
round appended a second time (without header) when it is non-empty. -/
def latestParts (label : String) (rounds : List RoundData) : List String :=
  match rounds.getLast? with
  | none => []
  | some last =>
    if last.contributions.length > 0 then
      (last.contributions.filter (fun c => c.participant ≠ label)).map entryLine
    else []

/-- the full `context_parts` list built by `_build_context` when the rounds
list is non-empty. -/
def contextParts (rounds : List RoundData) (label : String) : List String :=
  (rounds.map (roundParts label)).flatten ++ latestParts label rounds

/-- string form of `Roundtable._build_context`, as a function of the rounds
visible in the passed discussion and the current participant label (the
only two inputs the source body reads). -/
def contextFor (rounds : List RoundData) (label : String) : String :=
  if rounds = [] then ""
  else String.intercalate "\n" (contextParts rounds label)

/-- `Roundtable._build_context(discussion, current_participant)`. -/
def buildContext (d : Discussion) (p : Participant) : String :=
  contextFor d.rounds p.label

/-! Prompt construction. -/

/-- `Roundtable._create_participant_prompt` (tool lines included when tools
are loaded). -/
def createParticipantPrompt (tools : Option (List Tool)) (question : String)
    (roundNum : Nat) (context : String) : List Message :=
  let base :=
    "You are a thoughtful participant in a roundtable discussion. " ++
    "Your goal is to contribute meaningful insights, build on others\x27 ideas, " ++
    "and help the group reach a well-reasoned conclusion."
  let sysMsg :=
    match tools with
    | none => base
    | some ts =>
      base ++ "\n\nAvailable tools for research:\n" ++
        String.join (ts.map (fun t => "- " ++ t.name ++ ": " ++ t.description ++ "\n"))
  let userMsg :=
    if roundNum = 1 then
      "We\x27re discussing: " ++ question ++ "\n\n" ++
      "This is Round " ++ natRepr roundNum ++
      ". Please share your initial thoughts and insights. " ++
      "Be specific, insightful, and concise (2-4 sentences)."
    else
      "We\x27re discussing: " ++ question ++ "\n\n" ++
      "This is Round " ++ natRepr roundNum ++
      ". Here\x27s what others have said:\n" ++ context ++ "\n\n" ++
      "Please respond by:\n" ++
      "1. Building on the strongest ideas\n" ++
      "2. Adding new perspectives or addressing gaps\n" ++
      "3. Helping move toward a conclusion\n\n" ++
      "Keep it concise (2-4 sentences)."
  [Message.system sysMsg, Message.human userMsg]

/-- transcript compiled by `Roundtable._generate_summary`: every round,
header first, then every contribution (no filtering). -/
def summaryTranscript (rounds : List RoundData) : String :=
  String.intercalate "\n"
    ((rounds.map (fun rd =>
        roundHeader rd.round_number :: rd.contributions.map entryLine)).flatten)

/-- the two-message prompt sent to the moderator by `_generate_summary`. -/
def summaryPrompt (d : Discussion) : List Message :=
  [Message.system
      ("You are a skilled moderator synthesizing a roundtable discussion. " ++
       "Your task is to create a clear, balanced summary that captures:\n" ++
       "1. Key insights and agreements\n" ++
       "2. Diverse perspectives\n" ++
       "3. Practical conclusions or recommendations\n" ++
       "Be concise but comprehensive."),
   Message.human
      ("Question discussed: " ++ d.question ++ "\n\n" ++
       "Discussion:\n" ++ summaryTranscript d.rounds ++ "\n\n" ++
       "Please provide a final summary of this roundtable discussion.")]

/-- `Roundtable._generate_summary`: returns the empty string when no
moderator client is bound, otherwise the moderator reply (or its error). -/
def generateSummary (M : List Message → Except ProviderError String)
    (rt : Roundtable) (d : Discussion) : Except ProviderError String :=
  match rt.moderator with
  | none => .ok ""
  | some _ => M (summaryPrompt d)

/-! The discussion loop (`Roundtable.discuss`, `Roundtable._conduct_round`). -/

/-- ghost record of a single participant call: the round number, the called
participant label, the rounds visible to `_build_context` at call time, and
the context string it produced. -/
structure CallRecord where
  roundNo : Nat
  label : String
  priorRounds : List RoundData
  context : String
  deriving DecidableEq, Repr, Inhabited

/-- result of conducting (part of) one round. -/
structure RoundResult where
  result : Except ProviderError (List Contribution)
  participants : List Participant
  counter : Nat
  trace : List CallRecord
  deriving Repr, Inhabited

/-- the participant loop of `_conduct_round`.  Each participant in order:
build the context from the discussion, create the prompt, invoke the
oracle; on success append the reply to the participant log and the round
contribution list, on failure propagate the error leaving the remaining
participants (and the failing one) untouched. -/
def conductRoundAux (O : Nat → List Message → Except ProviderError String)
    (question : String) (tools : Option (List Tool)) (roundNum : Nat)
    (disc : Discussion) : List Participant → Nat → RoundResult
  | [], k => ⟨.ok [], [], k, []⟩
  | p :: rest, k =>
    let context := buildContext disc p
    let cr : CallRecord := ⟨roundNum, p.label, disc.rounds, context⟩
    let prompt := createParticipantPrompt tools question roundNum context
    match O k prompt with
    | .error e => ⟨.error e, p :: rest, k + 1, [cr]⟩
    | .ok text =>
      let p' : Participant :=
        { p with contributions := p.contributions ++ [text] }
      let r := conductRoundAux O question tools roundNum disc rest (k + 1)
      ⟨r.result.map (fun cs => ⟨p.label, p.name, text⟩ :: cs),
       p' :: r.participants, r.counter, cr :: r.trace⟩

/-- result of running (a suffix of) the round loop. -/
structure RunResult where
  result : Except ProviderError Discussion
  participants : List Participant
  counter : Nat
  trace : List CallRecord
  deriving Repr, Inhabited

/-- the round loop of `discuss`: for each round number in order, conduct
the round and append its round dict to the discussion. -/
def runRounds (O : Nat → List Message → Except ProviderError String)
    (question : String) (tools : Option (List Tool)) :
    List Nat → Discussion → List Participant → Nat → RunResult
  | [], disc, ps, k => ⟨.ok disc, ps, k, []⟩
  | rn :: rest, disc, ps, k =>
    let r := conductRoundAux O question tools rn disc ps k
    match r.result with
    | .error e => ⟨.error e, r.participants, r.counter, r.trace⟩
    | .ok cs =>
      let disc' : Discussion :=
        { disc with rounds := disc.rounds ++ [⟨rn, cs⟩] }
      let r' := runRounds O question tools rest disc' r.participants r.counter
      ⟨r'.result, r'.participants, r'.counter, r.trace ++ r'.trace⟩

/-- `Roundtable.discuss(question)`: run rounds `1..max_rounds`, then, when
the moderator capability is enabled, store the moderator reply as the final
summary.  The returned participants are the orchestrator participant state
after the call (preserved even when the call fails partway). -/
def discuss (O : Nat → List Message → Except ProviderError String)
    (M : List Message → Except ProviderError String)
    (rt : Roundtable) (question : String) : RunResult :=
  let r := runRounds O question rt.tools (List.range' 1 rt.max_rounds)
      ⟨question, [], none⟩ rt.participants 0
  match r.result with
  | .error e => ⟨.error e, r.participants, r.counter, r.trace⟩
  | .ok disc =>
    if rt.moderator_enabled then
      match generateSummary M rt disc with
      | .error e => ⟨.error e, r.participants, r.counter, r.trace⟩
      | .ok s =>
        ⟨.ok { disc with final_summary := some s },
         r.participants, r.counter, r.trace⟩
    else ⟨.ok disc, r.participants, r.counter, r.trace⟩

/-! Configuration resolution (`src/llm.py`). -/

/-- the process environment (`os.environ` plus the loaded `.env`): a finite
association list from variable names to values. -/
abbrev Env := List (String × String)

/-- `os.getenv(key)`. -/
def getenv (env : Env) (key : String) : Option String :=
  List.lookup key env

/-- `os.getenv(key, default)`. -/
def getenvD (env : Env) (key dflt : String) : String :=
  (getenv env key).getD dflt

/-- Python truthiness of an optional string: `None` and `""` are falsy. -/
def falsy : Option String → Bool
  | none => true
  | some s => s == ""

/-- Python `a or b` on an optional string and a fallback option. -/
def orElseFalsy (a b : Option String) : Option String :=
  match a with
  | none => b
  | some s => if s == "" then b else some s

/-- Python `a or b` on an optional string and a fallback string. -/
def orDefFalsy (a : Option String) (b : String) : String :=
  match a with
  | none => b
  | some s => if s == "" then b else s

/-- errors raised during construction (the `ValueError`s of `__init__` and
`get_llm_client`); this is the ConfigurationError taxonomy of the spec. -/
inductive ConfigurationError where
  | noParticipants
  | missingApiKey
  deriving DecidableEq, Repr

/-- a configured chat client binding (`ChatOpenAI(model, key, base_url)`);
the callable itself is modelled by the oracles. -/
structure LLMClient where
  model : String
  api_key : String
  base_url : String
  deriving DecidableEq, Repr, Inhabited

/-- `llm.get_llm_client`: fill missing arguments from the `DEFAULT_*`
variables and fail when no API key can be found. -/
def get_llm_client (env : Env) (model api_key base_url : Option String) :
    Except ConfigurationError LLMClient :=
  let m := orDefFalsy model (getenvD env "DEFAULT_MODEL" "gpt-4o")
  let key := orElseFalsy api_key (getenv env "DEFAULT_API_KEY")
  let url := orDefFalsy base_url (getenvD env "DEFAULT_BASE_URL" "https://api.openai.com/v1")
  match key with
  | none => .error .missingApiKey
  | some k => if k == "" then .error .missingApiKey else .ok ⟨m, k, url⟩

/-- one resolved participant triple with its label, as returned by
`get_participant_models`. -/
structure ParticipantConfig where
  name : String
  api_key : String
  base_url : String
  label : String
  deriving DecidableEq, Repr, Inhabited

/-- the `while True` scan over `MODEL{i}`/`API_KEY{i}` in
`get_participant_models`, starting at index `i`.  The fuel argument makes
the recursion structural; the Python loop terminates because the real
environment is finite, and every claim below is proved for every fuel. -/
def scanParticipants (env : Env) : Nat → Nat → List ParticipantConfig
  | 0, _ => []
  | fuel + 1, i =>
    match getenv env ("MODEL" ++ natRepr i), getenv env ("API_KEY" ++ natRepr i) with
    | some model, some key =>
      if model = "" ∨ key = "" then []
      else
        { name := model, api_key := key,
          base_url := getenvD env ("BASE_URL" ++ natRepr i) "https://api.openai.com/v1",
          label := "Participant " ++ natRepr i } :: scanParticipants env fuel (i + 1)
    | _, _ => []

/-- `llm.get_participant_models`: the numbered scan, falling back to the
single `DEFAULT_*` participant when the scan found none. -/
def get_participant_models (env : Env) (fuel : Nat) : List ParticipantConfig :=
  let ps := scanParticipants env fuel 1
  if ps = [] then
    match getenv env "DEFAULT_MODEL", getenv env "DEFAULT_API_KEY" with
    | some m, some k =>
      if m = "" ∨ k = "" then []
      else
        [{ name := m, api_key := k,
           base_url := getenvD env "DEFAULT_BASE_URL" "https://api.openai.com/v1",
           label := "Participant 1" }]
    | _, _ => []
  else ps

/-- `llm.get_moderator_llm` called with no explicit arguments, as in
`Roundtable.__init__`. -/
def get_moderator_llm (env : Env) : Except ConfigurationError LLMClient :=
  let model := getenv env "MODERATOR_MODEL"
  let api_key := getenv env "MODERATOR_API_KEY"
  let base_url := getenv env "MODERATOR_BASE_URL"
  if falsy model || falsy api_key then
    get_llm_client env (some (getenvD env "DEFAULT_MODEL" "gpt-4o"))
      (getenv env "DEFAULT_API_KEY")
      (some (getenvD env "DEFAULT_BASE_URL" "https://api.openai.com/v1"))
  else
    get_llm_client env model api_key base_url

/-- `Roundtable._initialize_participants`: build one client per resolved
configuration and wrap it in a `Participant` with an empty log. -/
def initParticipants (env : Env) :
    List ParticipantConfig → Except ConfigurationError (List Participant)
  | [] => .ok []
  | c :: rest =>
    match get_llm_client env (some c.name) (some c.api_key) (some c.base_url) with
    | .error e => .error e
    | .ok _ =>
      match initParticipants env rest with
      | .error e => .error e
      | .ok ps => .ok ({ name := c.name, label := c.label, contributions := [] } :: ps)

/-- `Roundtable.__init__`: resolve participants, bind the moderator when
enabled, load tools when enabled, and fail when no participant was
resolved.  `availableTools` models the externally supplied
`AVAILABLE_TOOLS` (or `none` when the import degrades).  Construction
performs no model call: no oracle is in scope here. -/
def initRoundtable (env : Env) (fuel : Nat) (maxRounds : Nat)
    (moderatorEnabled toolsEnabled : Bool) (availableTools : Option (List Tool)) :
    Except ConfigurationError Roundtable :=
  match initParticipants env (get_participant_models env fuel) with
  | .error e => .error e
  | .ok participants =>
    match (if moderatorEnabled then (get_moderator_llm env).map some else .ok none) with
    | .error e => .error e
    | .ok moderatorClient =>
      if participants = [] then .error .noParticipants
      else
        .ok { max_rounds := maxRounds,
              moderator_enabled := moderatorEnabled,
              tools := if toolsEnabled then availableTools else none,
              moderator := moderatorClient.map (fun c => c.model),
              participants := participants }

/-! Export (`Roundtable.export_discussion` and helpers). -/

/-- a horizontal rule of 80 copies of a character (`"=" * 80`). -/
def ruleLine (c : Char) : String := ⟨List.replicate 80 c⟩

/-- `Roundtable._export_markdown`. -/
def exportMarkdown (d : Discussion) : String :=
  let header : List String :=
    ["# Roundtable Discussion\n", "## Question\n", d.question ++ "\n",
     "\n## Discussion\n"]
  let roundLines : List String :=
    (d.rounds.map (fun rd =>
      ("\n### Round " ++ natRepr rd.round_number ++ "\n") ::
        (rd.contributions.map (fun c =>
          ["\n**" ++ c.participant ++ "** (" ++ c.model ++ "):\n",
           c.text ++ "\n"])).flatten)).flatten
  let summaryLines : List String :=
    match d.final_summary with
    | some s => if s == "" then [] else ["\n## Final Summary\n", s ++ "\n"]
    | none => []
  String.intercalate "\n" (header ++ roundLines ++ summaryLines)

/-- `Roundtable._export_text`. -/
def exportText (d : Discussion) : String :=
  let header : List String :=
    ["ROUNDTABLE DISCUSSION", ruleLine '=',
     "\nQuestion: " ++ d.question ++ "\n"]
  let roundLines : List String :=
    (d.rounds.map (fun rd =>
      ("\n--- Round " ++ natRepr rd.round_number ++ " ---\n") ::
        (rd.contributions.map (fun c =>
          [c.participant ++ " (" ++ c.model ++ "):",
           c.text ++ "\n"])).flatten)).flatten
  let summaryLines : List String :=
    match d.final_summary with
    | some s =>
      if s == "" then []
      else ["\n" ++ ruleLine '-', "FINAL SUMMARY:", ruleLine '-', s ++ "\n"]
    | none => []
  String.intercalate "\n" (header ++ roundLines ++ summaryLines)

/-! JSON emission: `json.dumps(discussion.__dict__, indent=2)`.  The
standard-library serializer is an external collaborator; it is modelled
here, applied to the fixed shape of `Discussion.__dict__`, with the
mandatory escapes for quote and backslash and named escapes for newline,
tab and carriage return (Python additionally escapes other control and
non-ASCII characters, a transport detail that does not change the parsed
structure). -/

/-- escape of one character inside a JSON string literal. -/
def jsonEscapeChar (c : Char) : List Char :=
  if c = '"' then ['\\', '"']
  else if c = '\\' then ['\\', '\\']
  else if c = '\n' then ['\\', 'n']
  else if c = '\t' then ['\\', 't']
  else if c = '\r' then ['\\', 'r']
  else [c]

/-- a JSON string literal with its quotes. -/
def jsonQuote (s : String) : List Char :=
  '"' :: (s.data.map jsonEscapeChar).flatten ++ ['"']

/-- a JSON numeral. -/
def jsonNat (n : Nat) : List Char := toDigitsAux (n + 1) n

/-- newline followed by the two-space indentation of `indent=2` at the
given nesting level. -/
def jsonNl (lvl : Nat) : List Char := '\n' :: List.replicate (2 * lvl) ' '

/-- one contribution dict at nesting level `lvl`. -/
def emitContribution (lvl : Nat) (c : Contribution) : List Char :=
  '\x7b' :: (jsonNl (lvl + 1) ++ jsonQuote "participant" ++ ':' :: ' ' ::
    jsonQuote c.participant ++ ',' :: (jsonNl (lvl + 1) ++ jsonQuote "model" ++
    ':' :: ' ' :: jsonQuote c.model ++ ',' :: (jsonNl (lvl + 1) ++
    jsonQuote "text" ++ ':' :: ' ' :: jsonQuote c.text ++
    jsonNl lvl ++ ['\x7d'])))

/-- the comma-separated tail of a contribution array. -/
def emitContribItems (lvl : Nat) : List Contribution → List Char
  | [] => []
  | c :: cs => ',' :: (jsonNl lvl ++ emitContribution lvl c ++ emitContribItems lvl cs)

/-- a contribution array at nesting level `lvl`. -/
def emitContribs (lvl : Nat) : List Contribution → List Char
  | [] => ['[', ']']
  | c :: cs =>
    '[' :: (jsonNl (lvl + 1) ++ emitContribution (lvl + 1) c ++
      emitContribItems (lvl + 1) cs ++ jsonNl lvl ++ [']'])

/-- one round dict at nesting level `lvl`. -/
def emitRound (lvl : Nat) (rd : RoundData) : List Char :=
  '\x7b' :: (jsonNl (lvl + 1) ++ jsonQuote "round_number" ++ ':' :: ' ' ::
    jsonNat rd.round_number ++ ',' :: (jsonNl (lvl + 1) ++
    jsonQuote "contributions" ++ ':' :: ' ' ::
    emitContribs (lvl + 1) rd.contributions ++ jsonNl lvl ++ ['\x7d']))

/-- the comma-separated tail of the rounds array. -/
def emitRoundItems (lvl : Nat) : List RoundData → List Char
  | [] => []
  | rd :: rds => ',' :: (jsonNl lvl ++ emitRound lvl rd ++ emitRoundItems lvl rds)

/-- the rounds array at nesting level `lvl`. -/
def emitRounds (lvl : Nat) : List RoundData → List Char
  | [] => ['[', ']']
  | rd :: rds =>
    '[' :: (jsonNl (lvl + 1) ++ emitRound (lvl + 1) rd ++
      emitRoundItems (lvl + 1) rds ++ jsonNl lvl ++ [']'])

/-- `null` or a string literal, for the `final_summary` field. -/
def emitOptString : Option String → List Char
  | none => ['n', 'u', 'l', 'l']
  | some s => jsonQuote s

/-- the serialized `discussion.__dict__` (fields in dataclass order). -/
def emitDiscussion (d : Discussion) : List Char :=
  '\x7b' :: (jsonNl 1 ++ jsonQuote "question" ++ ':' :: ' ' ::
    jsonQuote d.question ++ ',' :: (jsonNl 1 ++ jsonQuote "rounds" ++
    ':' :: ' ' :: emitRounds 1 d.rounds ++ ',' :: (jsonNl 1 ++
    jsonQuote "final_summary" ++ ':' :: ' ' ::
    emitOptString d.final_summary ++ jsonNl 0 ++ ['\x7d'])))

/-- `Roundtable.export_discussion(discussion, format)`: markdown and json
are dispatched on the format string; every other format falls into the
`else` branch and is exported as plain text. -/
def exportDiscussion (d : Discussion) (format : String) : String :=
  if format = "markdown" then exportMarkdown d
  else if format = "json" then ⟨emitDiscussion d⟩
  else exportText d

/-! JSON parsing (`json.loads` applied to the exported string), specialized
to the shape emitted for a `Discussion`.  The parser consumes characters
(skipping whitespace between tokens) and reconstructs the record; it is the
model of parsing the exported string back. -/

/-- skip blanks, newlines, tabs and carriage returns between tokens. -/
def skipWs : List Char → List Char
  | c :: cs =>
    if c = ' ' ∨ c = '\n' ∨ c = '\t' ∨ c = '\r' then skipWs cs else c :: cs
  | [] => []

/-- strip an expected literal token from the front. -/
def stripToken : List Char → List Char → Option (List Char)
  | [], cs => some cs
  | _ :: _, [] => none
  | t :: ts, c :: cs => if c = t then stripToken ts cs else none

/-- skip whitespace, then strip an expected literal token. -/
def expectTok (tok : List Char) (cs : List Char) : Option (List Char) :=
  stripToken tok (skipWs cs)

/-- body of a JSON string literal after its opening quote: decode escapes,
stop at the closing quote, and return the content and the rest. -/
def parseStringBody : List Char → Option (List Char × List Char)
  | [] => none
  | c :: rest =>
    if c = '\\' then
      match rest with
      | [] => none
      | e :: rest' =>
        match parseStringBody rest' with
        | none => none
        | some (content, after) =>
          let decoded :=
            if e = 'n' then '\n'
            else if e = 't' then '\t'
            else if e = 'r' then '\r'
            else e
          some (decoded :: content, after)
    else if c = '"' then some ([], rest)
    else
      match parseStringBody rest with
      | none => none
      | some (content, after) => some (c :: content, after)

/-- a JSON string literal (after whitespace). -/
def parseString (cs : List Char) : Option (String × List Char) :=
  match skipWs cs with
  | '"' :: rest =>
    match parseStringBody rest with
    | none => none
    | some (content, after) => some (⟨content⟩, after)
  | _ => none

/-- digit accumulation for a JSON numeral. -/
def parseNatAux (acc : Nat) : List Char → Nat × List Char
  | [] => (acc, [])
  | c :: cs =>
    if c.isDigit then parseNatAux (acc * 10 + (c.toNat - 48)) cs
    else (acc, c :: cs)

/-- a JSON natural numeral (after whitespace). -/
def parseNat (cs : List Char) : Option (Nat × List Char) :=
  match skipWs cs with
  | c :: rest =>
    if c.isDigit then some (parseNatAux 0 (c :: rest)) else none
  | [] => none

/-- a fixed object key followed by its colon. -/
def parseKey (key : String) (cs : List Char) : Option (List Char) :=
  match parseString cs with
  | none => none
  | some (k, rest) => if k = key then expectTok [':'] rest else none

/-- `null` or a string literal (the `final_summary` value). -/
def parseOptString (cs : List Char) : Option (Option String × List Char) :=
  match skipWs cs with
  | 'n' :: rest =>
    match stripToken ['u', 'l', 'l'] rest with
    | none => none
    | some after => some (none, after)
  | '"' :: rest =>
    match parseStringBody rest with
    | none => none
    | some (content, after) => some (some ⟨content⟩, after)
  | _ => none

/-- one contribution object. -/
def parseContribution (cs : List Char) : Option (Contribution × List Char) :=
  match expectTok ['\x7b'] cs with
  | none => none
  | some r0 =>
    match parseKey "participant" r0 with
    | none => none
    | some r1 =>
      match parseString r1 with
      | none => none
      | some (participant, r2) =>
        match expectTok [','] r2 with
        | none => none
        | some r3 =>
          match parseKey "model" r3 with
          | none => none
          | some r4 =>
            match parseString r4 with
            | none => none
            | some (model, r5) =>
              match expectTok [','] r5 with
              | none => none
              | some r6 =>
                match parseKey "text" r6 with
                | none => none
                | some r7 =>
                  match parseString r7 with
                  | none => none
                  | some (text, r8) =>
                    match expectTok ['\x7d'] r8 with
                    | none => none
                    | some r9 => some (⟨participant, model, text⟩, r9)

/-- comma-separated contribution-array tail, fuel-bounded (each step
consumes at least one character, so any fuel above the input length is
enough). -/
def parseContribItems : Nat → List Char → Option (List Contribution × List Char)
  | 0, _ => none
  | fuel + 1, cs =>
    match skipWs cs with
    | ']' :: rest => some ([], rest)
    | ',' :: rest =>
      match parseContribution rest with
      | none => none
      | some (c, r1) =>
        match parseContribItems fuel r1 with
        | none => none
        | some (items, r2) => some (c :: items, r2)
    | _ => none

/-- a contribution array. -/
def parseContribs (cs : List Char) : Option (List Contribution × List Char) :=
  match expectTok ['['] cs with
  | none => none
  | some r0 =>
    match skipWs r0 with
    | ']' :: rest => some ([], rest)
    | _ =>
      match parseContribution r0 with
      | none => none
      | some (c, r1) =>
        match parseContribItems (r1.length + 1) r1 with
        | none => none
        | some (items, r2) => some (c :: items, r2)

/-- one round object. -/
def parseRound (cs : List Char) : Option (RoundData × List Char) :=
  match expectTok ['\x7b'] cs with
  | none => none
  | some r0 =>
    match parseKey "round_number" r0 with
    | none => none
    | some r1 =>
      match parseNat r1 with
      | none => none
      | some (n, r2) =>
        match expectTok [','] r2 with
        | none => none
        | some r3 =>
          match parseKey "contributions" r3 with
          | none => none
          | some r4 =>
            match parseContribs r4 with
            | none => none
            | some (contributions, r5) =>
              match expectTok ['\x7d'] r5 with
              | none => none
              | some r6 => some (⟨n, contributions⟩, r6)

/-- comma-separated rounds-array tail, fuel-bounded. -/
def parseRoundItems : Nat → List Char → Option (List RoundData × List Char)
  | 0, _ => none
  | fuel + 1, cs =>
    match skipWs cs with
    | ']' :: rest => some ([], rest)
    | ',' :: rest =>
      match parseRound rest with
      | none => none
      | some (rd, r1) =>
        match parseRoundItems fuel r1 with
        | none => none
        | some (items, r2) => some (rd :: items, r2)
    | _ => none

/-- the rounds array. -/
def parseRounds (cs : List Char) : Option (List RoundData × List Char) :=
  match expectTok ['['] cs with
  | none => none
  | some r0 =>
    match skipWs r0 with
    | ']' :: rest => some ([], rest)
    | _ =>
      match parseRound r0 with
      | none => none
      | some (rd, r1) =>
        match parseRoundItems (r1.length + 1) r1 with
        | none => none
        | some (items, r2) => some (rd :: items, r2)

/-- the top-level discussion object. -/
def parseDiscussionObj (cs : List Char) : Option (Discussion × List Char) :=
  match expectTok ['\x7b'] cs with
  | none => none
  | some r0 =>
    match parseKey "question" r0 with
    | none => none
    | some r1 =>
      match parseString r1 with
      | none => none
      | some (question, r2) =>
        match expectTok [','] r2 with
        | none => none
        | some r3 =>
          match parseKey "rounds" r3 with
          | none => none
          | some r4 =>
            match parseRounds r4 with
            | none => none
            | some (rounds, r5) =>
              match expectTok [','] r5 with
              | none => none
              | some r6 =>
                match parseKey "final_summary" r6 with
                | none => none
                | some r7 =>
                  match parseOptString r7 with
                  | none => none
                  | some (final_summary, r8) =>
                    match expectTok ['\x7d'] r8 with
                    | none => none
                    | some r9 => some (⟨question, rounds, final_summary⟩, r9)

/-- parse an exported discussion string back into a record (`json.loads`
followed by reading the fields); fails unless the whole input is one
discussion object. -/
def parseDiscussion (s : String) : Option Discussion :=
  match parseDiscussionObj s.data with
  | none => none
  | some (d, rest) => if skipWs rest = [] then some d else none

/-! Specification-side formulations and concrete sample inputs. -/

/-- the context the spec sentence of claim C1 describes: concatenation, in
round order then registration order, of every other participant's labeled
contribution from all strictly-earlier rounds, each appearing exactly once
(round headers interleaved as the rendering labels rounds). -/
def contextOnceSpec (rounds : List RoundData) (label : String) : String :=
  String.intercalate "\n" ((rounds.map (roundParts label)).flatten)

/-- the amended specification context: the exactly-once concatenation of
`contextOnceSpec` followed by a second copy of the latest earlier round's
other-participant lines (the duplication the design notes flag). -/
def contextDupSpec (rounds : List RoundData) (label : String) : String :=
  String.intercalate "\n"
    ((rounds.map (roundParts label)).flatten ++
      ((rounds.getLast?.map (fun last =>
          (last.contributions.filter (fun c => c.participant ≠ label)).map
            entryLine)).getD []))

/-- a populated final summary in the sense of claim C3: a non-empty string. -/
def isPopulated : Option String → Bool
  | none => false
  | some s => s != ""

/-- participant-state evolution during a discussion: name and label are
preserved and the contribution log only grows by appended entries. -/
def ExtP (p p' : Participant) : Prop :=
  p'.name = p.name ∧ p'.label = p.label ∧
    ∃ ex, p'.contributions = p.contributions ++ ex

/-- an always-succeeding participant oracle answering call `k` with `T<k>`. -/
def okO : Nat → List Message → Except ProviderError String :=
  fun k _ => .ok ("T" ++ natRepr k)

/-- a moderator oracle answering with the non-empty summary `"S"`. -/
def okM : List Message → Except ProviderError String := fun _ => .ok "S"

/-- a moderator oracle answering with the empty string. -/
def emptyM : List Message → Except ProviderError String := fun _ => .ok ""

/-- a participant oracle whose first call succeeds and whose later calls
fail. -/
def failO : Nat → List Message → Except ProviderError String :=
  fun k _ => if k = 0 then .ok "T0" else .error ⟨"model call failed"⟩

/-- first sample participant. -/
def pA : Participant := ⟨"mA", "Participant 1", []⟩

/-- second sample participant. -/
def pB : Participant := ⟨"mB", "Participant 2", []⟩

/-- two participants, two rounds, no moderator. -/
def rtCex : Roundtable := ⟨2, false, none, none, [pA, pB]⟩

/-- two participants, one round, moderator enabled. -/
def rtMod : Roundtable := ⟨1, true, none, some "gpt-4o", [pA, pB]⟩

/-- two participants, one round, no moderator (used with the failing
oracle). -/
def rtFail : Roundtable := ⟨1, false, none, none, [pA, pB]⟩

/-- the concrete two-round run used by several witnesses. -/
def cexRun : RunResult := discuss okO okM rtCex "Q"

/-- the record produced by the concrete two-round run. -/
def cexDisc : Discussion :=
  match cexRun.result with
  | .ok d => d
  | .error _ => default

/-- the round-2 call of participant 1 in the concrete two-round run. -/
def cexRec : CallRecord := cexRun.trace.getD 2 default

/-- the round-1 call of participant 1 in the concrete two-round run. -/
def r1Rec : CallRecord := cexRun.trace.getD 0 default

/-- the concrete moderated run with a non-empty moderator reply. -/
def modRun : RunResult := discuss okO okM rtMod "Q"

/-- the record produced by the moderated run. -/
def modDisc : Discussion :=
  match modRun.result with
  | .ok d => d
  | .error _ => default

/-- the concrete moderated run whose moderator replies with `""`. -/
def emptyModRun : RunResult := discuss okO emptyM rtMod "Q"

/-- the record produced by the empty-reply moderated run. -/
def cexD3 : Discussion :=
  match emptyModRun.result with
  | .ok d => d
  | .error _ => default

/-- the concrete run that fails at the second model call. -/
def failRun : RunResult := discuss failO okM rtFail "Q"

/-- a small sample record for the export claims. -/
def sampleD5 : Discussion :=
  ⟨"Q5", [⟨1, [⟨"Participant 1", "mA", "t1"⟩]⟩], some "sum"⟩

/-! Theorems.  Supporting lemmas first, then one theorem per claim (with
witnesses and counterexamples as separate closed theorems). -/

theorem digitChar_toNat_eq : ∀ n, n < 10 → (Nat.digitChar n).toNat = 48 + n := by
  decide

theorem digitChar_isDigit : ∀ n, n < 10 → (Nat.digitChar n).isDigit = true := by
  decide

theorem toDigitsAux_foldl (fuel : Nat) :
    ∀ n a, n < fuel →
      (toDigitsAux fuel n).foldl (fun x c => x * 10 + (c.toNat - 48)) a =
        a * 10 ^ (toDigitsAux fuel n).length + n := by
  induction fuel with
  | zero => intro n a h; omega
  | succ fuel ih =>
    intro n a h
    by_cases h10 : n < 10
    · have hc := digitChar_toNat_eq n h10
      simp only [toDigitsAux, if_pos h10, List.foldl_cons, List.foldl_nil,
        List.length_cons, List.length_nil, hc, pow_succ, pow_zero, one_mul]
      omega
    · have hdiv : n / 10 < n := Nat.div_lt_self (by omega) (by omega)
      have hdiv' : n / 10 < fuel := by omega
      have hm : n % 10 < 10 := Nat.mod_lt _ (by omega)
      have hc := digitChar_toNat_eq (n % 10) hm
      simp only [toDigitsAux, if_neg h10, List.foldl_append, List.foldl_cons,
        List.foldl_nil, List.length_append, List.length_cons, List.length_nil,
        ih (n / 10) a hdiv', hc]
      have hdm := Nat.div_add_mod n 10
      rw [pow_succ, ← Nat.mul_assoc]
      generalize a * 10 ^ (toDigitsAux fuel (n / 10)).length = A
      omega

theorem natRepr_injective : Function.Injective natRepr := by
  intro m n h
  have hdata : (natRepr m).data = (natRepr n).data := by rw [h]
  have hm := toDigitsAux_foldl (m + 1) m 0 (by omega)
  have hn := toDigitsAux_foldl (n + 1) n 0 (by omega)
  simp only [Nat.zero_mul, Nat.zero_add] at hm hn
  have : toDigitsAux (m + 1) m = toDigitsAux (n + 1) n := hdata
  rw [this] at hm
  omega

theorem string_append_left_cancel {a b c : String} (h : a ++ b = a ++ c) : b = c := by
  have hd : a.data ++ b.data = a.data ++ c.data := by
    rw [← String.data_append, ← String.data_append, h]
  have := List.append_cancel_left hd
  cases b; cases c
  simp only at this
  rw [this]

theorem participantLabel_injective :
    Function.Injective (fun i => "Participant " ++ natRepr i) := by
  intro a b h
  exact natRepr_injective (string_append_left_cancel h)

theorem scanParticipants_labels (env : Env) :
    ∀ fuel i,
      (scanParticipants env fuel i).map (fun c => c.label) =
        (List.range' i (scanParticipants env fuel i).length).map
          (fun j => "Participant " ++ natRepr j) := by
  intro fuel
  induction fuel with
  | zero => intro i; simp [scanParticipants]
  | succ fuel ih =>
    intro i
    cases h1 : getenv env ("MODEL" ++ natRepr i) with
    | none => simp [scanParticipants, h1]
    | some m =>
      cases h2 : getenv env ("API_KEY" ++ natRepr i) with
      | none => simp [scanParticipants, h1, h2]
      | some k =>
        by_cases hblank : m = "" ∨ k = ""
        · simp [scanParticipants, h1, h2, hblank]
        · simp only [scanParticipants, h1, h2, if_neg hblank, List.map_cons,
            List.length_cons]
          have hr : List.range' i ((scanParticipants env fuel (i + 1)).length + 1) =
              i :: List.range' (i + 1) (scanParticipants env fuel (i + 1)).length := rfl
          rw [hr, List.map_cons, ih (i + 1)]

/-- Claim C10: every configuration resolution labels its i-th resolved
triple `"Participant i"` (1-based), and the produced labels are pairwise
distinct — the invariant the own-text-exclusion filter of
`_build_context` relies on when it compares labels for inequality. -/
theorem c10_labels_distinct (env : Env) (fuel : Nat) :
    (get_participant_models env fuel).map (fun c => c.label) =
      (List.range' 1 (get_participant_models env fuel).length).map
        (fun j => "Participant " ++ natRepr j) ∧
    ((get_participant_models env fuel).map (fun c => c.label)).Nodup := by
  have key : (get_participant_models env fuel).map (fun c => c.label) =
      (List.range' 1 (get_participant_models env fuel).length).map
        (fun j => "Participant " ++ natRepr j) := by
    unfold get_participant_models
    by_cases hscan : scanParticipants env fuel 1 = []
    · simp only [hscan, if_pos rfl]
      cases hm : getenv env "DEFAULT_MODEL" with
      | none => simp
      | some m =>
        cases hk : getenv env "DEFAULT_API_KEY" with
        | none => simp
        | some k =>
          by_cases hblank : m = "" ∨ k = ""
          · simp [hblank]
          · simp only [if_neg hblank]
            rfl
    · simp only [if_neg hscan]
      exact scanParticipants_labels env fuel 1
  refine ⟨key, ?_⟩
  rw [key]
  exact (List.nodup_range' (s := 1)
    (n := (get_participant_models env fuel).length)).map participantLabel_injective

/-- the context string is the newline join of the parts list (non-empty
history), and empty on an empty history. -/
theorem contextFor_nil (label : String) : contextFor [] label = "" := rfl

/-- the reference context coincides with the amended specification context
on every input: strictly-earlier-rounds blocks followed by a duplicated
copy of the latest earlier round's other-participant lines. -/
theorem contextFor_eq_dupSpec (rounds : List RoundData) (label : String) :
    contextFor rounds label = contextDupSpec rounds label := by
  unfold contextFor contextDupSpec contextParts latestParts
  by_cases h : rounds = []
  · subst h; rfl
  · rw [if_neg h]
    cases hl : rounds.getLast? with
    | none => simp
    | some last =>
      by_cases hc : last.contributions.length > 0
      · simp [hc]
      · have : last.contributions = [] := by
          cases hcl : last.contributions with
          | nil => rfl
          | cons x xs => rw [hcl] at hc; simp at hc
        simp [hc, this]

/-- every part of a built context is either a round header or the line of
a contribution from a participant other than the current one. -/
theorem contextParts_cases (rounds : List RoundData) (label : String)
    (part : String) (hp : part ∈ contextParts rounds label) :
    (∃ n, part = roundHeader n) ∨
      ∃ e, e ∈ (rounds.map (fun rd => rd.contributions)).flatten ∧
        e.participant ≠ label ∧ part = entryLine e := by
  unfold contextParts at hp
  rcases List.mem_append.mp hp with hmain | hlatest
  · rcases List.mem_flatten.mp hmain with ⟨parts, hparts, hpart⟩
    rcases List.mem_map.mp hparts with ⟨rd, hrd, rfl⟩
    unfold roundParts at hpart
    rcases List.mem_cons.mp hpart with rfl | hentry
    · exact Or.inl ⟨rd.round_number, rfl⟩
    · rcases List.mem_map.mp hentry with ⟨e, hefil, rfl⟩
      have hmem := List.mem_filter.mp hefil
      refine Or.inr ⟨e, ?_, ?_, rfl⟩
      · exact List.mem_flatten.mpr ⟨rd.contributions, List.mem_map.mpr ⟨rd, hrd, rfl⟩, hmem.1⟩
      · simpa using hmem.2
  · unfold latestParts at hlatest
    split at hlatest
    · simp at hlatest
    · rename_i last hl
      by_cases hc : last.contributions.length > 0
      · rw [if_pos hc] at hlatest
        rcases List.mem_map.mp hlatest with ⟨e, hefil, rfl⟩
        have hmem := List.mem_filter.mp hefil
        have hlastmem : last ∈ rounds := by
          rcases List.mem_getLast?_eq_getLast (by rw [hl]; rfl) with ⟨hne, heq⟩
          rw [heq]
          exact List.getLast_mem hne
        refine Or.inr ⟨e, ?_, ?_, rfl⟩
        · exact List.mem_flatten.mpr
            ⟨last.contributions, List.mem_map.mpr ⟨last, hlastmem, rfl⟩, hmem.1⟩
        · simpa using hmem.2
      · rw [if_neg hc] at hlatest; simp at hlatest

/-- participant-state evolution is reflexive. -/
theorem extP_refl (p : Participant) : ExtP p p := ⟨rfl, rfl, [], by simp⟩

/-- participant-state evolution is transitive. -/
theorem extP_trans {a b c : Participant} (h1 : ExtP a b) (h2 : ExtP b c) :
    ExtP a c := by
  obtain ⟨n1, l1, e1, he1⟩ := h1
  obtain ⟨n2, l2, e2, he2⟩ := h2
  exact ⟨by rw [n2, n1], by rw [l2, l1], e1 ++ e2,
    by rw [he2, he1, List.append_assoc]⟩

/-- pointwise evolution is reflexive on lists. -/
theorem forall₂_extP_refl (ps : List Participant) : List.Forall₂ ExtP ps ps :=
  List.forall₂_same.mpr (fun p _ => extP_refl p)

/-- pointwise evolution is transitive on lists. -/
theorem forall₂_extP_trans : ∀ {ps qs rs : List Participant},
    List.Forall₂ ExtP ps qs → List.Forall₂ ExtP qs rs →
      List.Forall₂ ExtP ps rs := by
  intro ps qs rs h1 h2
  induction h1 generalizing rs with
  | nil => cases h2; exact .nil
  | cons hpq _ ih =>
    cases h2 with
    | cons hqr h2rest => exact .cons (extP_trans hpq hqr) (ih h2rest)

/-- every call issued while conducting one round is made against the
discussion state passed into the round, and its recorded context is the
reference context of those rounds for the called label. -/
theorem conductRoundAux_trace (O : Nat → List Message → Except ProviderError String)
    (q : String) (tools : Option (List Tool)) (rn : Nat) (disc : Discussion) :
    ∀ ps k, ∀ c ∈ (conductRoundAux O q tools rn disc ps k).trace,
      c.roundNo = rn ∧ c.priorRounds = disc.rounds ∧
        c.context = contextFor disc.rounds c.label := by
  intro ps
  induction ps with
  | nil => intro k c hc; simp [conductRoundAux] at hc
  | cons p rest ih =>
    intro k c hc
    simp only [conductRoundAux] at hc
    cases hO : O k (createParticipantPrompt tools q rn (buildContext disc p)) with
    | error e =>
      rw [hO] at hc
      simp only [List.mem_singleton] at hc
      subst hc
      exact ⟨rfl, rfl, rfl⟩
    | ok t =>
      rw [hO] at hc
      simp only [List.mem_cons] at hc
      rcases hc with rfl | hc
      · exact ⟨rfl, rfl, rfl⟩
      · exact ih (k + 1) c hc

/-- conducting a round only appends to participant logs, preserving names
and labels, even when a call fails partway. -/
theorem conductRoundAux_ext (O : Nat → List Message → Except ProviderError String)
    (q : String) (tools : Option (List Tool)) (rn : Nat) (disc : Discussion) :
    ∀ ps k, List.Forall₂ ExtP ps (conductRoundAux O q tools rn disc ps k).participants := by
  intro ps
  induction ps with
  | nil => intro k; exact .nil
  | cons p rest ih =>
    intro k
    simp only [conductRoundAux]
    cases hO : O k (createParticipantPrompt tools q rn (buildContext disc p)) with
    | error e => exact forall₂_extP_refl _
    | ok t => exact .cons ⟨rfl, rfl, [t], rfl⟩ (ih (k + 1))

/-- the round loop only appends to participant logs. -/
theorem runRounds_ext (O : Nat → List Message → Except ProviderError String)
    (q : String) (tools : Option (List Tool)) :
    ∀ rns disc ps k,
      List.Forall₂ ExtP ps (runRounds O q tools rns disc ps k).participants := by
  intro rns
  induction rns with
  | nil => intro disc ps k; exact forall₂_extP_refl ps
  | cons rn rest ih =>
    intro disc ps k
    simp only [runRounds]
    cases hres : (conductRoundAux O q tools rn disc ps k).result with
    | error e => exact conductRoundAux_ext O q tools rn disc ps k
    | ok cs =>
      exact forall₂_extP_trans (conductRoundAux_ext O q tools rn disc ps k)
        (ih _ _ _)

/-- trace invariant of the round loop over rounds `r..r+m-1`, starting
from a discussion that already holds `r - 1` rounds: every issued call
carries a round number in range, sees exactly the rounds completed
strictly before its round, and records the reference context of what it
sees.  This holds whether or not the run fails partway. -/
theorem runRounds_trace (O : Nat → List Message → Except ProviderError String)
    (q : String) (tools : Option (List Tool)) :
    ∀ m r disc ps k, disc.rounds.length + 1 = r →
      ∀ c ∈ (runRounds O q tools (List.range' r m) disc ps k).trace,
        r ≤ c.roundNo ∧ c.roundNo < r + m ∧
          c.priorRounds.length + 1 = c.roundNo ∧
          c.context = contextFor c.priorRounds c.label := by
  intro m
  induction m with
  | zero => intro r disc ps k hlen c hc; simp [runRounds] at hc
  | succ m ih =>
    intro r disc ps k hlen c hc
    have hcons : List.range' r (m + 1) = r :: List.range' (r + 1) m := rfl
    rw [hcons] at hc
    simp only [runRounds] at hc
    cases hres : (conductRoundAux O q tools r disc ps k).result with
    | error e =>
      rw [hres] at hc
      obtain ⟨h1, h2, h3⟩ := conductRoundAux_trace O q tools r disc ps k c hc
      refine ⟨by omega, by omega, ?_, ?_⟩
      · rw [h2, hlen, h1]
      · rw [h3, h2]
    | ok cs =>
      rw [hres] at hc
      rcases List.mem_append.mp hc with hhead | htail
      · obtain ⟨h1, h2, h3⟩ := conductRoundAux_trace O q tools r disc ps k c hhead
        refine ⟨by omega, by omega, ?_, ?_⟩
        · rw [h2, hlen, h1]
        · rw [h3, h2]
      · have hlen' :
            ({ disc with rounds := disc.rounds ++ [⟨r, cs⟩] } : Discussion).rounds.length + 1 =
              r + 1 := by
          simp only [List.length_append, List.length_cons, List.length_nil]
          omega
        obtain ⟨b1, b2, b3, b4⟩ := ih (r + 1) _ _ _ hlen' c htail
        exact ⟨by omega, by omega, b3, b4⟩

/-- on success the round loop extends the rounds of its input discussion
and preserves question and summary. -/
theorem runRounds_rounds_ext (O : Nat → List Message → Except ProviderError String)
    (q : String) (tools : Option (List Tool)) :
    ∀ rns disc ps k d, (runRounds O q tools rns disc ps k).result = .ok d →
      d.question = disc.question ∧ d.final_summary = disc.final_summary ∧
        ∃ ext, d.rounds = disc.rounds ++ ext := by
  intro rns
  induction rns with
  | nil =>
    intro disc ps k d hd
    simp only [runRounds, Except.ok.injEq] at hd
    subst hd
    exact ⟨rfl, rfl, [], by simp⟩
  | cons rn rest ih =>
    intro disc ps k d hd
    simp only [runRounds] at hd
    cases hres : (conductRoundAux O q tools rn disc ps k).result with
    | error e => rw [hres] at hd; simp at hd
    | ok cs =>
      rw [hres] at hd
      obtain ⟨hq, hs, ext, hr⟩ := ih _ _ _ _ hd
      refine ⟨hq, hs, ⟨rn, cs⟩ :: ext, ?_⟩
      rw [hr]
      simp

/-- on success the rounds appended by the loop over round numbers
`r..r+m-1` are numbered exactly by those numbers, in order. -/
theorem runRounds_numbering (O : Nat → List Message → Except ProviderError String)
    (q : String) (tools : Option (List Tool)) :
    ∀ m r disc ps k d,
      (runRounds O q tools (List.range' r m) disc ps k).result = .ok d →
      ∃ ext, d.rounds = disc.rounds ++ ext ∧
        ext.map (fun rd => rd.round_number) = List.range' r m := by
  intro m
  induction m with
  | zero =>
    intro r disc ps k d hd
    simp only [runRounds, Except.ok.injEq] at hd
    subst hd
    exact ⟨[], by simp, rfl⟩
  | succ m ih =>
    intro r disc ps k d hd
    have hcons : List.range' r (m + 1) = r :: List.range' (r + 1) m := rfl
    rw [hcons] at hd
    simp only [runRounds] at hd
    cases hres : (conductRoundAux O q tools r disc ps k).result with
    | error e => rw [hres] at hd; simp at hd
    | ok cs =>
      rw [hres] at hd
      obtain ⟨ext, hr, hmap⟩ := ih (r + 1) _ _ _ _ hd
      refine ⟨⟨r, cs⟩ :: ext, ?_, ?_⟩
      · rw [hr]; simp
      · rw [List.map_cons, hmap]; rfl

/-- on success, every call of the loop saw a prefix of the final rounds. -/
theorem runRounds_take (O : Nat → List Message → Except ProviderError String)
    (q : String) (tools : Option (List Tool)) :
    ∀ rns disc ps k d, (runRounds O q tools rns disc ps k).result = .ok d →
      ∀ c ∈ (runRounds O q tools rns disc ps k).trace,
        ∃ suffix, d.rounds = c.priorRounds ++ suffix := by
  intro rns
  induction rns with
  | nil => intro disc ps k d _ c hc; simp [runRounds] at hc
  | cons rn rest ih =>
    intro disc ps k d hd c hc
    simp only [runRounds] at hd hc
    cases hres : (conductRoundAux O q tools rn disc ps k).result with
    | error e => rw [hres] at hd; simp at hd
    | ok cs =>
      rw [hres] at hd hc
      rcases List.mem_append.mp hc with hhead | htail
      · obtain ⟨_, h2, _⟩ := conductRoundAux_trace O q tools rn disc ps k c hhead
        obtain ⟨_, _, ext, hr⟩ := runRounds_rounds_ext O q tools rest _ _ _ _ hd
        refine ⟨⟨rn, cs⟩ :: ext, ?_⟩
        rw [hr, h2]
        simp
      · exact ih _ _ _ _ hd c htail

/-- the calls traced by `discuss` are exactly the calls of its round loop
(the moderator branch adds no participant call). -/
theorem discuss_trace_eq (O : Nat → List Message → Except ProviderError String)
    (M : List Message → Except ProviderError String) (rt : Roundtable) (q : String) :
    (discuss O M rt q).trace =
      (runRounds O q rt.tools (List.range' 1 rt.max_rounds)
        ⟨q, [], none⟩ rt.participants 0).trace := by
  simp only [discuss]
  split
  · rfl
  · split
    · split
      · rfl
      · rfl
    · rfl

/-- the participant state returned by `discuss` is the state after its
round loop, whether or not the call failed. -/
theorem discuss_participants_eq (O : Nat → List Message → Except ProviderError String)
    (M : List Message → Except ProviderError String) (rt : Roundtable) (q : String) :
    (discuss O M rt q).participants =
      (runRounds O q rt.tools (List.range' 1 rt.max_rounds)
        ⟨q, [], none⟩ rt.participants 0).participants := by
  simp only [discuss]
  split
  · rfl
  · split
    · split
      · rfl
      · rfl
    · rfl

/-- a successful `discuss` comes from a successful round loop whose output
record it returns with at most the final summary filled in. -/
theorem discuss_ok (O : Nat → List Message → Except ProviderError String)
    (M : List Message → Except ProviderError String) (rt : Roundtable) (q : String)
    (d : Discussion) (hd : (discuss O M rt q).result = .ok d) :
    ∃ disc, (runRounds O q rt.tools (List.range' 1 rt.max_rounds)
        ⟨q, [], none⟩ rt.participants 0).result = .ok disc ∧
      d.question = disc.question ∧ d.rounds = disc.rounds := by
  simp only [discuss] at hd
  split at hd
  · simp at hd
  · rename_i disc hres
    split at hd
    · split at hd
      · simp at hd
      · rename_i s hgen
        simp only [Except.ok.injEq] at hd
        subst hd
        exact ⟨disc, hres, rfl, rfl⟩
    · simp only [Except.ok.injEq] at hd
      subst hd
      exact ⟨disc, hres, rfl, rfl⟩

/-- Claim C8: the context string built for every round-1 call is empty
(whether or not the discussion later fails). -/
theorem c8_round1_context_empty (O : Nat → List Message → Except ProviderError String)
    (M : List Message → Except ProviderError String) (rt : Roundtable) (q : String)
    (c : CallRecord) (hc : c ∈ (discuss O M rt q).trace) (h1 : c.roundNo = 1) :
    c.context = "" := by
  rw [discuss_trace_eq] at hc
  obtain ⟨_, _, hlen, hctx⟩ := runRounds_trace O q rt.tools rt.max_rounds 1
    ⟨q, [], none⟩ rt.participants 0 rfl c hc
  rw [h1] at hlen
  have hnil : c.priorRounds = [] := List.length_eq_zero.mp (by omega)
  rw [hctx, hnil]
  rfl

/-- witness for C8: the first call of the concrete two-round run is a
round-1 call and its context is empty. -/
theorem c8_witness :
    r1Rec ∈ (discuss okO okM rtCex "Q").trace ∧ r1Rec.roundNo = 1 ∧
      r1Rec.context = "" :=
  ⟨by decide, by decide,
    c8_round1_context_empty okO okM rtCex "Q" r1Rec (by decide) (by decide)⟩

/-- Claim C2: the context string assembled for any call is the reference
context of the rounds that call saw, and every part of that context is
either a round header or the line of a contribution whose participant
label differs from the called participant's label — the called
participant's own prior text is never included. -/
theorem c2_own_text_excluded (O : Nat → List Message → Except ProviderError String)
    (M : List Message → Except ProviderError String) (rt : Roundtable) (q : String)
    (c : CallRecord) (hc : c ∈ (discuss O M rt q).trace) (part : String)
    (hp : part ∈ contextParts c.priorRounds c.label) :
    c.context = contextFor c.priorRounds c.label ∧
      ((∃ n, part = roundHeader n) ∨
        ∃ e, e ∈ (c.priorRounds.map (fun rd => rd.contributions)).flatten ∧
          e.participant ≠ c.label ∧ part = entryLine e) := by
  rw [discuss_trace_eq] at hc
  obtain ⟨_, _, _, hctx⟩ := runRounds_trace O q rt.tools rt.max_rounds 1
    ⟨q, [], none⟩ rt.participants 0 rfl c hc
  exact ⟨hctx, contextParts_cases c.priorRounds c.label part hp⟩

/-- witness for C2 at the round-2 call of participant 1 of the concrete
run, on its first context part. -/
theorem c2_witness :
    cexRec ∈ (discuss okO okM rtCex "Q").trace ∧
      roundHeader 1 ∈ contextParts cexRec.priorRounds cexRec.label ∧
      (cexRec.context = contextFor cexRec.priorRounds cexRec.label ∧
        ((∃ n, roundHeader 1 = roundHeader n) ∨
          ∃ e, e ∈ (cexRec.priorRounds.map (fun rd => rd.contributions)).flatten ∧
            e.participant ≠ cexRec.label ∧ roundHeader 1 = entryLine e)) :=
  ⟨by decide, by decide,
    c2_own_text_excluded okO okM rtCex "Q" cexRec (by decide) (roundHeader 1)
      (by decide)⟩

/-- counterexample to C1 as stated: in the concrete two-round run, the
round-2 call of participant 1 receives a context that differs from the
exactly-once concatenation of the other participants' earlier
contributions — the latest earlier round is included twice. -/
theorem c1_counterexample :
    cexRun.result = .ok cexDisc ∧ cexRec ∈ cexRun.trace ∧ 2 ≤ cexRec.roundNo ∧
      cexRec.context ≠
        contextOnceSpec (cexDisc.rounds.take (cexRec.roundNo - 1)) cexRec.label :=
  ⟨rfl, by decide, by decide, by decide⟩

/-- Claim C1 (amended): for every call of round `r ≥ 2` in a successful
discussion, the context string equals the concatenation, in round order
then registration order, of every other participant's labeled
contribution from the strictly-earlier rounds `1..r-1`, followed by a
second copy of the latest earlier round's other-participant lines. -/
theorem c1_amended_context_shape (O : Nat → List Message → Except ProviderError String)
    (M : List Message → Except ProviderError String) (rt : Roundtable) (q : String)
    (d : Discussion) (hd : (discuss O M rt q).result = .ok d)
    (c : CallRecord) (hc : c ∈ (discuss O M rt q).trace) (hr : 2 ≤ c.roundNo) :
    c.context = contextDupSpec (d.rounds.take (c.roundNo - 1)) c.label := by
  obtain ⟨disc, hres, _, hrounds⟩ := discuss_ok O M rt q d hd
  rw [discuss_trace_eq] at hc
  obtain ⟨_, _, hlen, hctx⟩ := runRounds_trace O q rt.tools rt.max_rounds 1
    ⟨q, [], none⟩ rt.participants 0 rfl c hc
  obtain ⟨suffix, hsuf⟩ := runRounds_take O q rt.tools _ _ _ _ disc hres c hc
  have htake : d.rounds.take (c.roundNo - 1) = c.priorRounds := by
    rw [hrounds, hsuf]
    have hn : c.roundNo - 1 = c.priorRounds.length := by omega
    rw [hn]
    exact List.take_left _ _
  rw [htake, hctx, contextFor_eq_dupSpec]

/-- witness for the amended C1 at the round-2 call of participant 1 of
the concrete two-round run. -/
theorem c1_amended_witness :
    cexRun.result = .ok cexDisc ∧ cexRec ∈ cexRun.trace ∧ 2 ≤ cexRec.roundNo ∧
      cexRec.context =
        contextDupSpec (cexDisc.rounds.take (cexRec.roundNo - 1)) cexRec.label :=
  ⟨rfl, by decide, by decide,
    c1_amended_context_shape okO okM rtCex "Q" cexDisc rfl cexRec (by decide)
      (by decide)⟩

/-- Claim C4: a successful discussion with `max_rounds = N ≥ 1` has
exactly N rounds, numbered `1..N` in order (hence no gaps and no
duplicates). -/
theorem c4_rounds_numbered (O : Nat → List Message → Except ProviderError String)
    (M : List Message → Except ProviderError String) (rt : Roundtable) (q : String)
    (d : Discussion) (hN : 1 ≤ rt.max_rounds)
    (hd : (discuss O M rt q).result = .ok d) :
    d.rounds.length = rt.max_rounds ∧
      d.rounds.map (fun rd => rd.round_number) = List.range' 1 rt.max_rounds := by
  obtain ⟨disc, hres, _, hrounds⟩ := discuss_ok O M rt q d hd
  obtain ⟨ext, hr, hmap⟩ := runRounds_numbering O q rt.tools rt.max_rounds 1
    ⟨q, [], none⟩ rt.participants 0 disc hres
  have hre : d.rounds = ext := by
    rw [hrounds, hr]
    rfl
  have hlen := congrArg List.length hmap
  simp only [List.length_map, List.length_range'] at hlen
  constructor
  · rw [hre]; exact hlen
  · rw [hre]; exact hmap

/-- witness for C4 on the concrete two-round run. -/
theorem c4_witness :
    1 ≤ rtCex.max_rounds ∧ cexRun.result = .ok cexDisc ∧
      cexDisc.rounds.length = rtCex.max_rounds ∧
      cexDisc.rounds.map (fun rd => rd.round_number) =
        List.range' 1 rtCex.max_rounds :=
  ⟨by decide, rfl, c4_rounds_numbered okO okM rtCex "Q" cexDisc (by decide) rfl⟩

/-- counterexample to C3 as stated: a completed discussion with the
moderator enabled and one completed round whose `final_summary` is the
empty string (the moderator reply verbatim), hence not populated although
the moderator was enabled and a round completed. -/
theorem c3_counterexample :
    emptyModRun.result = .ok cexD3 ∧ rtMod.moderator_enabled = true ∧
      1 ≤ cexD3.rounds.length ∧ cexD3.final_summary = some "" ∧
      ¬(isPopulated cexD3.final_summary = true ↔
          (rtMod.moderator_enabled = true ∧ 1 ≤ cexD3.rounds.length)) := by
  refine ⟨rfl, rfl, by decide, by decide, ?_⟩
  intro h
  have hpop := h.mpr ⟨rfl, by decide⟩
  exact absurd hpop (by decide)

/-- Claim C3 (amended): after a successful discussion, `final_summary` is
`none` exactly when the moderator capability was disabled; when it is
set, it is the moderator's returned text verbatim (so it is non-empty
exactly when the moderator returned non-empty text), independently of how
many rounds completed. -/
theorem c3_amended_summary (O : Nat → List Message → Except ProviderError String)
    (M : List Message → Except ProviderError String) (rt : Roundtable) (q : String)
    (d : Discussion) (hmod : rt.moderator.isSome = rt.moderator_enabled)
    (hd : (discuss O M rt q).result = .ok d) :
    (d.final_summary = none ↔ rt.moderator_enabled = false) ∧
      ∀ s, d.final_summary = some s →
        M (summaryPrompt { d with final_summary := none }) = .ok s := by
  simp only [discuss] at hd
  split at hd
  · simp at hd
  · rename_i disc hres
    have hdiscsum : disc.final_summary = none :=
      (runRounds_rounds_ext O q rt.tools _ _ _ _ disc hres).2.1
    split at hd
    · rename_i hb
      split at hd
      · simp at hd
      · rename_i s hgen
        simp only [Except.ok.injEq] at hd
        subst hd
        unfold generateSummary at hgen
        cases hm : rt.moderator with
        | none =>
          rw [hm] at hmod
          rw [hb] at hmod
          simp at hmod
        | some name =>
          rw [hm] at hgen
          have hdisc_eq :
              ({ { disc with final_summary := some s } with
                  final_summary := none } : Discussion) = disc := by
            cases disc with
            | mk qq rr ss =>
              simp only at hdiscsum
              simp [hdiscsum]
          refine ⟨by simp [hb], ?_⟩
          intro s' hs'
          simp only at hs'
          have hss : s = s' := by simpa using hs'
          subst hss
          rw [hdisc_eq]
          exact hgen
    · rename_i hb
      simp only [Except.ok.injEq] at hd
      subst hd
      simp only [Bool.not_eq_true] at hb
      constructor
      · simp [hdiscsum, hb]
      · intro s hs
        rw [hdiscsum] at hs
        simp at hs

/-- witness for the amended C3 on the concrete moderated run. -/
theorem c3_amended_witness :
    rtMod.moderator.isSome = rtMod.moderator_enabled ∧
      modRun.result = .ok modDisc ∧
      (modDisc.final_summary = none ↔ rtMod.moderator_enabled = false) :=
  ⟨rfl, rfl, (c3_amended_summary okO okM rtMod "Q" modDisc rfl rfl).1⟩

/-- a round loop run on a non-empty participant list returns a non-empty
participant list whose head evolved from the input head. -/
theorem runRounds_head_ext (O : Nat → List Message → Except ProviderError String)
    (q : String) (tools : Option (List Tool)) (rns : List Nat) (disc : Discussion)
    (p' : Participant) (tl : List Participant) (k : Nat) :
    ∃ p2 l2, (runRounds O q tools rns disc (p' :: tl) k).participants = p2 :: l2 ∧
      ExtP p' p2 := by
  have h := runRounds_ext O q tools rns disc (p' :: tl) k
  rcases List.forall₂_cons_left_iff.mp h with ⟨b, u', hb, _, heq⟩
  exact ⟨b, u', heq, hb⟩

/-- Claim C9: when a model call fails partway through a discussion (here:
the very first call succeeded with reply `t` and the discussion as a whole
failed), the orchestrator participant state after the failed call still
holds the already-produced contributions — the first participant's log is
its old log with `t` (and possibly later replies) appended, so a later
`discuss` on the same orchestrator starts from non-empty logs. -/
theorem c9_no_rollback (O : Nat → List Message → Except ProviderError String)
    (M : List Message → Except ProviderError String) (rt : Roundtable) (q : String)
    (p : Participant) (rest : List Participant) (t : String) (e : ProviderError)
    (hps : rt.participants = p :: rest) (hN : 1 ≤ rt.max_rounds)
    (h0 : O 0 (createParticipantPrompt rt.tools q 1
        (buildContext ⟨q, [], none⟩ p)) = .ok t)
    (herr : (discuss O M rt q).result = .error e) :
    ∃ p2 l, (discuss O M rt q).participants.head? = some p2 ∧
      p2.label = p.label ∧ p2.contributions = p.contributions ++ t :: l := by
  rw [discuss_participants_eq]
  obtain ⟨m, hm⟩ : ∃ m, rt.max_rounds = m + 1 := ⟨rt.max_rounds - 1, by omega⟩
  rw [hm, hps]
  have hcons : List.range' 1 (m + 1) = 1 :: List.range' 2 m := rfl
  rw [hcons]
  simp only [runRounds, conductRoundAux]
  rw [h0]
  cases hr2 : (conductRoundAux O q rt.tools 1 ⟨q, [], none⟩ rest 1).result with
  | error e2 =>
    refine ⟨{ p with contributions := p.contributions ++ [t] }, [], ?_, rfl, by simp⟩
    simp [Except.map]
  | ok cs =>
    obtain ⟨p2, l2, heq, hname, hlabel, ex, hcontrib⟩ :=
      runRounds_head_ext O q rt.tools (List.range' 2 m)
        { (⟨q, [], none⟩ : Discussion) with
            rounds := ([] : List RoundData) ++
              [⟨1, (⟨p.label, p.name, t⟩ : Contribution) :: cs⟩] }
        { p with contributions := p.contributions ++ [t] }
        (conductRoundAux O q rt.tools 1 ⟨q, [], none⟩ rest 1).participants
        (conductRoundAux O q rt.tools 1 ⟨q, [], none⟩ rest 1).counter
    refine ⟨p2, ex, ?_, hlabel, ?_⟩
    · simp only [Except.map]
      rw [heq]
      rfl
    · rw [hcontrib]
      simp

/-- witness for C9: the concrete run whose second call fails keeps the
first participant's already-produced reply `"T0"` in its log. -/
theorem c9_witness :
    rtFail.participants = pA :: [pB] ∧ 1 ≤ rtFail.max_rounds ∧
      failO 0 (createParticipantPrompt rtFail.tools "Q" 1
        (buildContext ⟨"Q", [], none⟩ pA)) = .ok "T0" ∧
      failRun.result = .error ⟨"model call failed"⟩ ∧
      ∃ p2 l, failRun.participants.head? = some p2 ∧ p2.label = pA.label ∧
        p2.contributions = pA.contributions ++ "T0" :: l :=
  ⟨rfl, by decide, rfl, rfl,
    c9_no_rollback failO okM rtFail "Q" pA [pB] "T0" ⟨"model call failed"⟩
      rfl (by decide) rfl rfl⟩

/-- Claim C6: when zero participants can be resolved from the
configuration, constructing the orchestrator fails with a
`ConfigurationError`.  The construction model takes no oracle, so the
failure occurs before any model call can be made. -/
theorem c6_no_participants_error (env : Env) (fuel maxR : Nat)
    (mEnabled tEnabled : Bool) (ts : Option (List Tool))
    (h : get_participant_models env fuel = []) :
    ∃ e, initRoundtable env fuel maxR mEnabled tEnabled ts = .error e := by
  unfold initRoundtable
  rw [h]
  simp only [initParticipants]
  cases hmod : (if mEnabled then (get_moderator_llm env).map some
      else Except.ok none) with
  | error e => exact ⟨e, rfl⟩
  | ok mc => exact ⟨.noParticipants, by simp⟩

/-- witness for C6: the empty environment resolves zero participants and
construction fails. -/
theorem c6_witness :
    get_participant_models [] 0 = [] ∧
      ∃ e, initRoundtable [] 0 3 true false none = .error e :=
  ⟨rfl, c6_no_participants_error [] 0 3 true false none rfl⟩

/-- counterexample to C5 as stated: exporting with the unsupported format
`"xml"` does not fail — `export_discussion` has no error path and falls
into its `else` branch, returning the plain-text rendering. -/
theorem c5_counterexample :
    exportDiscussion sampleD5 "xml" = exportText sampleD5 := rfl

/-- Claim C5 (amended): for every format string other than `"markdown"`
and `"json"`, exporting succeeds and returns the plain-text rendering; no
format is rejected and no export error exists. -/
theorem c5_amended_fallback (d : Discussion) (fmt : String)
    (h1 : fmt ≠ "markdown") (h2 : fmt ≠ "json") :
    exportDiscussion d fmt = exportText d := by
  simp [exportDiscussion, h1, h2]

/-- witness for the amended C5 on a concrete record and format. -/
theorem c5_witness :
    ("yaml" : String) ≠ "markdown" ∧ ("yaml" : String) ≠ "json" ∧
      exportDiscussion cexDisc "yaml" = exportText cexDisc :=
  ⟨by decide, by decide,
    c5_amended_fallback cexDisc "yaml" (by decide) (by decide)⟩

/-! Round-trip lemmas for the JSON export (claim C7). -/

theorem skipWs_cons_ws (c : Char) (cs : List Char)
    (h : c = ' ' ∨ c = '\n' ∨ c = '\t' ∨ c = '\r') :
    skipWs (c :: cs) = skipWs cs := by
  simp [skipWs, h]

theorem skipWs_cons_not (c : Char) (cs : List Char)
    (h : ¬(c = ' ' ∨ c = '\n' ∨ c = '\t' ∨ c = '\r')) :
    skipWs (c :: cs) = c :: cs := by
  simp [skipWs, h]

theorem skipWs_replicate_space (n : Nat) (cs : List Char) :
    skipWs (List.replicate n ' ' ++ cs) = skipWs cs := by
  induction n with
  | zero => rfl
  | succ n ih =>
    rw [List.replicate_succ, List.cons_append,
      skipWs_cons_ws _ _ (Or.inl rfl), ih]

theorem skipWs_jsonNl (lvl : Nat) (cs : List Char) :
    skipWs (jsonNl lvl ++ cs) = skipWs cs := by
  unfold jsonNl
  rw [List.cons_append, skipWs_cons_ws _ _ (Or.inr (Or.inl rfl)),
    skipWs_replicate_space]

theorem stripToken_self : ∀ (tok rest : List Char),
    stripToken tok (tok ++ rest) = some rest := by
  intro tok
  induction tok with
  | nil => intro rest; rfl
  | cons t ts ih => intro rest; simp [stripToken, ih]

theorem expectTok_brace_open (rest : List Char) :
    expectTok ['\x7b'] ('\x7b' :: rest) = some rest := by
  unfold expectTok
  rw [skipWs_cons_not _ _ (by decide)]
  exact stripToken_self ['\x7b'] rest

theorem expectTok_brace_close (rest : List Char) :
    expectTok ['\x7d'] ('\x7d' :: rest) = some rest := by
  unfold expectTok
  rw [skipWs_cons_not _ _ (by decide)]
  exact stripToken_self ['\x7d'] rest

theorem expectTok_comma (rest : List Char) :
    expectTok [','] (',' :: rest) = some rest := by
  unfold expectTok
  rw [skipWs_cons_not _ _ (by decide)]
  exact stripToken_self [','] rest

theorem expectTok_colon (rest : List Char) :
    expectTok [':'] (':' :: rest) = some rest := by
  unfold expectTok
  rw [skipWs_cons_not _ _ (by decide)]
  exact stripToken_self [':'] rest

theorem expectTok_bracket_open (rest : List Char) :
    expectTok ['['] ('[' :: rest) = some rest := by
  unfold expectTok
  rw [skipWs_cons_not _ _ (by decide)]
  exact stripToken_self ['['] rest

theorem expectTok_nl (tok : List Char) (lvl : Nat) (cs : List Char) :
    expectTok tok (jsonNl lvl ++ cs) = expectTok tok cs := by
  unfold expectTok
  rw [skipWs_jsonNl]

theorem parseStringBody_emit : ∀ (l rest : List Char),
    parseStringBody ((l.map jsonEscapeChar).flatten ++ '"' :: rest) =
      some (l, rest) := by
  intro l
  induction l with
  | nil =>
    intro rest
    unfold parseStringBody
    simp
  | cons c l ih =>
    intro rest
    rw [List.map_cons, List.flatten_cons, List.append_assoc]
    by_cases h1 : c = '"'
    · subst h1
      have he : jsonEscapeChar '"' = ['\\', '"'] := rfl
      rw [he]
      unfold parseStringBody
      simp [ih]
    · by_cases h2 : c = '\\'
      · subst h2
        have he : jsonEscapeChar '\\' = ['\\', '\\'] := rfl
        rw [he]
        unfold parseStringBody
        simp [ih]
      · by_cases h3 : c = '\n'
        · subst h3
          have he : jsonEscapeChar '\n' = ['\\', 'n'] := rfl
          rw [he]
          unfold parseStringBody
          simp [ih]
        · by_cases h4 : c = '\t'
          · subst h4
            have he : jsonEscapeChar '\t' = ['\\', 't'] := rfl
            rw [he]
            unfold parseStringBody
            simp [ih]
          · by_cases h5 : c = '\r'
            · subst h5
              have he : jsonEscapeChar '\r' = ['\\', 'r'] := rfl
              rw [he]
              unfold parseStringBody
              simp [ih]
            · have he : jsonEscapeChar c = [c] := by
                simp [jsonEscapeChar, h1, h2, h3, h4, h5]
              rw [he]
              unfold parseStringBody
              simp [h1, h2, ih]

theorem parseString_emit (s : String) (rest : List Char) :
    parseString (jsonQuote s ++ rest) = some (s, rest) := by
  have h1 : jsonQuote s ++ rest =
      '"' :: ((s.data.map jsonEscapeChar).flatten ++ '"' :: rest) := by
    simp [jsonQuote]
  rw [h1]
  unfold parseString
  rw [skipWs_cons_not _ _ (by decide)]
  simp [parseStringBody_emit]

theorem parseString_nl (lvl : Nat) (cs : List Char) :
    parseString (jsonNl lvl ++ cs) = parseString cs := by
  unfold parseString
  rw [skipWs_jsonNl]

theorem parseString_space (cs : List Char) :
    parseString (' ' :: cs) = parseString cs := by
  unfold parseString
  rw [skipWs_cons_ws _ _ (Or.inl rfl)]

theorem parseKey_emit (key : String) (rest : List Char) :
    parseKey key (jsonQuote key ++ ':' :: rest) = some rest := by
  unfold parseKey
  rw [parseString_emit]
  simp [expectTok_colon]

theorem parseKey_nl (key : String) (lvl : Nat) (cs : List Char) :
    parseKey key (jsonNl lvl ++ cs) = parseKey key cs := by
  unfold parseKey
  rw [parseString_nl]

theorem toDigitsAux_ne_nil (fuel n : Nat) (h : n < fuel) :
    toDigitsAux fuel n ≠ [] := by
  cases fuel with
  | zero => omega
  | succ fuel =>
    unfold toDigitsAux
    by_cases h10 : n < 10
    · simp [h10]
    · simp [h10]

theorem toDigitsAux_all_digits : ∀ (fuel n : Nat) (c : Char),
    c ∈ toDigitsAux fuel n → c.isDigit = true := by
  intro fuel
  induction fuel with
  | zero => intro n c hc; simp [toDigitsAux] at hc
  | succ fuel ih =>
    intro n c hc
    unfold toDigitsAux at hc
    by_cases h10 : n < 10
    · rw [if_pos h10] at hc
      simp only [List.mem_singleton] at hc
      subst hc
      exact digitChar_isDigit n h10
    · rw [if_neg h10] at hc
      rcases List.mem_append.mp hc with hl | hr
      · exact ih _ c hl
      · simp only [List.mem_singleton] at hr
        subst hr
        exact digitChar_isDigit _ (Nat.mod_lt _ (by omega))

theorem parseNatAux_append_digits : ∀ (ds : List Char),
    (∀ c ∈ ds, c.isDigit = true) → ∀ (a : Nat) (rest : List Char),
      parseNatAux a (ds ++ rest) =
        parseNatAux (ds.foldl (fun x c => x * 10 + (c.toNat - 48)) a) rest := by
  intro ds
  induction ds with
  | nil => intro _ a rest; rfl
  | cons c ds ih =>
    intro hall a rest
    have hc : c.isDigit = true := hall c (by simp)
    simp only [List.cons_append, parseNatAux, hc, if_true, List.foldl_cons]
    exact ih (fun x hx => hall x (by simp [hx])) _ rest

theorem parseNatAux_stop (a : Nat) (rest : List Char)
    (h : ∀ c, rest.head? = some c → c.isDigit = false) :
    parseNatAux a rest = (a, rest) := by
  cases rest with
  | nil => rfl
  | cons c cs => simp [parseNatAux, h c rfl]

theorem parseNat_emit (n : Nat) (rest : List Char)
    (h : ∀ c, rest.head? = some c → c.isDigit = false) :
    parseNat (jsonNat n ++ rest) = some (n, rest) := by
  unfold parseNat jsonNat
  cases hda : toDigitsAux (n + 1) n with
  | nil => exact absurd hda (toDigitsAux_ne_nil _ _ (by omega))
  | cons c tl =>
    have hcd : c.isDigit = true := by
      apply toDigitsAux_all_digits (n + 1) n c
      rw [hda]
      exact List.mem_cons_self _ _
    have hnotws : ¬(c = ' ' ∨ c = '\n' ∨ c = '\t' ∨ c = '\r') := by
      intro hor
      rcases hor with rfl | rfl | rfl | rfl <;> exact absurd hcd (by decide)
    rw [List.cons_append, skipWs_cons_not _ _ hnotws]
    simp only [hcd, if_true]
    have hback : c :: (tl ++ rest) = toDigitsAux (n + 1) n ++ rest := by
      rw [hda, List.cons_append]
    rw [hback,
      parseNatAux_append_digits _ (toDigitsAux_all_digits (n + 1) n) 0 rest,
      toDigitsAux_foldl (n + 1) n 0 (by omega),
      parseNatAux_stop _ _ h]
    simp

theorem parseNat_space (cs : List Char) :
    parseNat (' ' :: cs) = parseNat cs := by
  unfold parseNat
  rw [skipWs_cons_ws _ _ (Or.inl rfl)]

theorem parseOptString_emit (o : Option String) (rest : List Char) :
    parseOptString (emitOptString o ++ rest) = some (o, rest) := by
  cases o with
  | none =>
    show parseOptString ('n' :: 'u' :: 'l' :: 'l' :: rest) = some (none, rest)
    unfold parseOptString
    rw [skipWs_cons_not _ _ (by decide)]
    simp [stripToken]
  | some s =>
    have h1 : emitOptString (some s) ++ rest =
        '"' :: ((s.data.map jsonEscapeChar).flatten ++ '"' :: rest) := by
      simp [emitOptString, jsonQuote]
    rw [h1]
    unfold parseOptString
    rw [skipWs_cons_not _ _ (by decide)]
    simp [parseStringBody_emit]

theorem parseOptString_space (cs : List Char) :
    parseOptString (' ' :: cs) = parseOptString cs := by
  unfold parseOptString
  rw [skipWs_cons_ws _ _ (Or.inl rfl)]

theorem skipWs_brace (cs : List Char) : skipWs ('\x7b' :: cs) = '\x7b' :: cs :=
  skipWs_cons_not _ _ (by decide)

theorem parseContribution_emit (lvl : Nat) (c : Contribution) (rest : List Char) :
    parseContribution (emitContribution lvl c ++ rest) = some (c, rest) := by
  unfold emitContribution parseContribution
  simp only [List.append_assoc, List.cons_append, List.singleton_append]
  simp only [expectTok_brace_open, parseKey_nl, parseKey_emit, parseString_space,
    parseString_emit, expectTok_comma, expectTok_nl, expectTok_brace_close]
  rfl

theorem parseContribution_nl (lvl : Nat) (cs : List Char) :
    parseContribution (jsonNl lvl ++ cs) = parseContribution cs := by
  unfold parseContribution
  rw [expectTok_nl]

theorem emitContribItems_length (lvl : Nat) :
    ∀ cs : List Contribution, cs.length ≤ (emitContribItems lvl cs).length := by
  intro cs
  induction cs with
  | nil => simp [emitContribItems]
  | cons c cs ih =>
    simp only [emitContribItems, List.length_cons, List.length_append]
    omega

theorem skipWs_comma (cs : List Char) : skipWs (',' :: cs) = ',' :: cs :=
  skipWs_cons_not _ _ (by decide)

theorem skipWs_bracket_close (cs : List Char) : skipWs (']' :: cs) = ']' :: cs :=
  skipWs_cons_not _ _ (by decide)

theorem parseContribItems_emit (lvlI : Nat) :
    ∀ (cs : List Contribution) (fuel lvlE : Nat) (rest : List Char),
      cs.length < fuel →
      parseContribItems fuel
          (emitContribItems lvlI cs ++ (jsonNl lvlE ++ ']' :: rest)) =
        some (cs, rest) := by
  intro cs
  induction cs with
  | nil =>
    intro fuel lvlE rest hf
    cases fuel with
    | zero => omega
    | succ f =>
      unfold parseContribItems
      simp only [emitContribItems, List.nil_append, skipWs_jsonNl,
        skipWs_bracket_close]
  | cons c cs ih =>
    intro fuel lvlE rest hf
    cases fuel with
    | zero => omega
    | succ f =>
      unfold parseContribItems
      simp only [emitContribItems, List.append_assoc, List.cons_append,
        skipWs_comma, parseContribution_nl, parseContribution_emit]
      rw [ih f lvlE rest (by simpa using Nat.lt_of_succ_lt_succ hf)]

theorem parseContribs_emit (lvl : Nat) (l : List Contribution) (rest : List Char) :
    parseContribs (emitContribs lvl l ++ rest) = some (l, rest) := by
  cases l with
  | nil =>
    unfold parseContribs
    simp only [emitContribs, List.cons_append, List.singleton_append,
      List.nil_append, expectTok_bracket_open, skipWs_bracket_close]
  | cons c cs =>
    obtain ⟨Y, hY⟩ : ∃ Y, emitContribution (lvl + 1) c = '\x7b' :: Y := ⟨_, rfl⟩
    unfold parseContribs
    simp only [emitContribs, List.append_assoc, List.cons_append,
      List.singleton_append, List.nil_append, expectTok_bracket_open]
    rw [skipWs_jsonNl]
    have hsk : skipWs (emitContribution (lvl + 1) c ++
        (emitContribItems (lvl + 1) cs ++ (jsonNl lvl ++ ']' :: rest))) =
        '\x7b' :: (Y ++
          (emitContribItems (lvl + 1) cs ++ (jsonNl lvl ++ ']' :: rest))) := by
      rw [hY, List.cons_append, skipWs_brace]
    rw [hsk]
    split
    · rename_i r2 heq
      injection heq with h1 _
      exact absurd h1 (by decide)
    · simp only [parseContribution_nl, parseContribution_emit]
      have hfuel : cs.length <
          (emitContribItems (lvl + 1) cs ++
            (jsonNl lvl ++ ']' :: rest)).length + 1 := by
        have := emitContribItems_length (lvl + 1) cs
        simp only [List.length_append]
        omega
      rw [parseContribItems_emit (lvl + 1) cs _ lvl rest hfuel]

theorem expectTok_space (tok : List Char) (cs : List Char) :
    expectTok tok (' ' :: cs) = expectTok tok cs := by
  unfold expectTok
  rw [skipWs_cons_ws _ _ (Or.inl rfl)]

theorem parseNat_emit_comma (n : Nat) (T : List Char) :
    parseNat (jsonNat n ++ ',' :: T) = some (n, ',' :: T) := by
  apply parseNat_emit
  intro c hc
  simp only [List.head?_cons, Option.some.injEq] at hc
  subst hc
  decide

theorem parseContribs_space (cs : List Char) :
    parseContribs (' ' :: cs) = parseContribs cs := by
  unfold parseContribs
  rw [expectTok_space]

theorem parseRound_emit (lvl : Nat) (rd : RoundData) (rest : List Char) :
    parseRound (emitRound lvl rd ++ rest) = some (rd, rest) := by
  unfold emitRound parseRound
  simp only [List.append_assoc, List.cons_append, List.singleton_append,
    List.nil_append]
  simp only [expectTok_brace_open, parseKey_nl, parseKey_emit, parseNat_space,
    parseNat_emit_comma, expectTok_comma, parseContribs_space,
    parseContribs_emit, expectTok_nl, expectTok_brace_close]

theorem parseRound_nl (lvl : Nat) (cs : List Char) :
    parseRound (jsonNl lvl ++ cs) = parseRound cs := by
  unfold parseRound
  rw [expectTok_nl]

theorem emitRoundItems_length (lvl : Nat) :
    ∀ rds : List RoundData, rds.length ≤ (emitRoundItems lvl rds).length := by
  intro rds
  induction rds with
  | nil => simp [emitRoundItems]
  | cons rd rds ih =>
    simp only [emitRoundItems, List.length_cons, List.length_append]
    omega

theorem parseRoundItems_emit (lvlI : Nat) :
    ∀ (rds : List RoundData) (fuel lvlE : Nat) (rest : List Char),
      rds.length < fuel →
      parseRoundItems fuel
          (emitRoundItems lvlI rds ++ (jsonNl lvlE ++ ']' :: rest)) =
        some (rds, rest) := by
  intro rds
  induction rds with
  | nil =>
    intro fuel lvlE rest hf
    cases fuel with
    | zero => omega
    | succ f =>
      unfold parseRoundItems
      simp only [emitRoundItems, List.nil_append, skipWs_jsonNl,
        skipWs_bracket_close]
  | cons rd rds ih =>
    intro fuel lvlE rest hf
    cases fuel with
    | zero => omega
    | succ f =>
      unfold parseRoundItems
      simp only [emitRoundItems, List.append_assoc, List.cons_append,
        skipWs_comma, parseRound_nl, parseRound_emit]
      rw [ih f lvlE rest (by simpa using Nat.lt_of_succ_lt_succ hf)]

theorem parseRounds_emit (lvl : Nat) (l : List RoundData) (rest : List Char) :
    parseRounds (emitRounds lvl l ++ rest) = some (l, rest) := by
  cases l with
  | nil =>
    unfold parseRounds
    simp only [emitRounds, List.cons_append, List.singleton_append,
      List.nil_append, expectTok_bracket_open, skipWs_bracket_close]
  | cons rd rds =>
    obtain ⟨Y, hY⟩ : ∃ Y, emitRound (lvl + 1) rd = '\x7b' :: Y := ⟨_, rfl⟩
    unfold parseRounds
    simp only [emitRounds, List.append_assoc, List.cons_append,
      List.singleton_append, List.nil_append, expectTok_bracket_open]
    rw [skipWs_jsonNl]
    have hsk : skipWs (emitRound (lvl + 1) rd ++
        (emitRoundItems (lvl + 1) rds ++ (jsonNl lvl ++ ']' :: rest))) =
        '\x7b' :: (Y ++
          (emitRoundItems (lvl + 1) rds ++ (jsonNl lvl ++ ']' :: rest))) := by
      rw [hY, List.cons_append, skipWs_brace]
    rw [hsk]
    split
    · rename_i r2 heq
      injection heq with h1 _
      exact absurd h1 (by decide)
    · simp only [parseRound_nl, parseRound_emit]
      have hfuel : rds.length <
          (emitRoundItems (lvl + 1) rds ++
            (jsonNl lvl ++ ']' :: rest)).length + 1 := by
        have := emitRoundItems_length (lvl + 1) rds
        simp only [List.length_append]
        omega
      rw [parseRoundItems_emit (lvl + 1) rds _ lvl rest hfuel]

theorem parseRounds_space (cs : List Char) :
    parseRounds (' ' :: cs) = parseRounds cs := by
  unfold parseRounds
  rw [expectTok_space]

theorem parseDiscussionObj_emit (d : Discussion) (rest : List Char) :
    parseDiscussionObj (emitDiscussion d ++ rest) = some (d, rest) := by
  unfold emitDiscussion parseDiscussionObj
  simp only [List.append_assoc, List.cons_append, List.singleton_append,
    List.nil_append]
  simp only [expectTok_brace_open, parseKey_nl, parseKey_emit, parseString_space,
    parseString_emit, expectTok_comma, parseRounds_space, parseRounds_emit,
    parseOptString_space, parseOptString_emit, expectTok_nl,
    expectTok_brace_close]

/-- Claim C7: parsing the string produced by exporting a discussion record
in json format reconstructs the record exactly — in particular the parsed
structure has the same question, the same number of rounds, and the same
number of contributions in each round as the input record. -/
theorem c7_json_round_trip (d : Discussion) :
    parseDiscussion (exportDiscussion d "json") = some d := by
  have hfmt : exportDiscussion d "json" = ⟨emitDiscussion d⟩ := rfl
  rw [hfmt]
  unfold parseDiscussion
  have hdata : (⟨emitDiscussion d⟩ : String).data = emitDiscussion d := rfl
  rw [hdata]
  have h := parseDiscussionObj_emit d []
  rw [List.append_nil] at h
  rw [h]
  rfl
